import Mathlib

/-!
Verification of the Hopter ISR-safe synchronization layer.

This file gives a shallow embedding of the `Mailbox` primitive from
`src/sync/mailbox.rs` (its internal state, the two soft-lock access shapes,
`notify_allow_isr`, `run_pended_op`, and the two full-access critical
sections of `wait_until_timeout`), together with spec-modelled versions of
the `Mutex` and `Channel` primitives whose implementations are exercised by
the tests but not shipped in `src/`.

Machine integers: the Rust code uses `AtomicUsize` with wrapping
`fetch_add` / `fetch_sub` on a 32-bit target, so counters are modelled as
`Nat` with explicit reduction modulo `USIZE = 2 ^ 32` at every store.
-/

namespace Hopter

/-- Word size modulus of the 32-bit target: `usize` arithmetic wraps mod this. -/
def USIZE : Nat := 2 ^ 32

/-- Task scheduling states, from the task state machine. -/
inductive TaskState where
  | Ready
  | Running
  | Blocked
deriving DecidableEq, Repr

/-- The `Inner` state of a `Mailbox` (mailbox.rs, struct `Inner`):
`count` and `pending_count` are `AtomicUsize` (modelled as `Nat < USIZE`),
`wait_task` holds at most one waiting task (modelled by its task id), and
`task_notified` distinguishes wakeup by notification from wakeup by timeout. -/
structure Inner where
  count : Nat
  pending_count : Nat
  wait_task : Option Nat
  task_notified : Bool
deriving DecidableEq, Repr

/-- `Inner::new`: counters zero, no waiter, not notified. -/
def Inner.new : Inner :=
  { count := 0, pending_count := 0, wait_task := none, task_notified := false }

/-- Scheduler-side state touched by the mailbox operations: the time-ordered
sleep queue of `(wake_tick, task id)` pairs and the current tick counter. -/
structure KernelEnv where
  sleepQueue : List (Nat × Nat)
  tick : Nat
deriving DecidableEq, Repr

/-- `time::remove_task_from_sleep_queue_allow_isr`: idempotent removal of a
task from the sleep queue by identity. -/
def removeFromSleepQueue (q : List (Nat × Nat)) (t : Nat) : List (Nat × Nat) :=
  q.filter (fun e => e.2 ≠ t)

/-- `time::add_task_to_sleep_queue`: record the task with its wake tick. -/
def addToSleepQueue (q : List (Nat × Nat)) (wakeTick t : Nat) : List (Nat × Nat) :=
  q ++ [(wakeTick, t)]

/-- The two access shapes granted by the soft-lock (`Access::Full` /
`Access::PendOnly`). -/
inductive Access where
  | Full
  | PendOnly
deriving DecidableEq, Repr

/-- `InnerFullAccessor::run_pended_op` (mailbox.rs lines 86-109): atomically
swap `pending_count` to zero, add the swapped value into `count` (wrapping),
and if a waiting task is registered, take it out of the slot, remove it from
the sleep queue, decrement `count` (wrapping `fetch_sub`) and set
`task_notified`. -/
def run_pended_op (s : Inner) (env : KernelEnv) : Inner × KernelEnv :=
  let p := s.pending_count
  let s1 : Inner := { s with pending_count := 0, count := (s.count + p) % USIZE }
  match s1.wait_task with
  | some t =>
      ({ s1 with
          wait_task := none
          count := (s1.count + (USIZE - 1)) % USIZE
          task_notified := true },
       { env with sleepQueue := removeFromSleepQueue env.sleepQueue t })
  | none => (s1, env)

/-- `Mailbox::notify_allow_isr` (mailbox.rs lines 228-253), parameterized by
the access shape the soft-lock grants. With `Full` access: take the waiter if
any, remove it from the sleep queue and set `task_notified`; with no waiter,
`fetch_add(1)` on `count` and set `task_notified`. With `PendOnly` access:
`fetch_add(1)` on `pending_count` only. -/
def notify_allow_isr (acc : Access) (s : Inner) (env : KernelEnv) :
    Inner × KernelEnv :=
  match acc with
  | .Full =>
      match s.wait_task with
      | some t =>
          ({ s with wait_task := none, task_notified := true },
           { env with sleepQueue := removeFromSleepQueue env.sleepQueue t })
      | none =>
          ({ s with count := (s.count + 1) % USIZE, task_notified := true }, env)
  | .PendOnly =>
      ({ s with pending_count := (s.pending_count + 1) % USIZE }, env)

/-- Outcome of the first full-access critical section of
`wait_until_timeout`: either the call returns immediately with a Boolean, or
the calling task has been parked and the function will yield. -/
inductive WaitEntry where
  | immediate (ret : Bool)
  | blocked
deriving DecidableEq, Repr

/-- First half of `Mailbox::wait_until_timeout` (mailbox.rs lines 163-198
plus the no-block return at line 219): `die_if_in_isr`, then under full
access assert the waiter slot is empty (`none` result models the abort), on
`count > 0` decrement (`fetch_sub`, wrapping) and return `true` without
blocking, otherwise clear `task_notified`, set the calling task `Blocked`,
record it in the waiter slot and enqueue it in the sleep queue at
`get_tick() + timeout_ms`. The returned `TaskState` is the calling task's
state when the section ends. -/
def wait_until_timeout_entry (inIsr : Bool) (curTask timeout_ms : Nat)
    (s : Inner) (env : KernelEnv) :
    Option (WaitEntry × TaskState × Inner × KernelEnv) :=
  if inIsr then none
  else
    match s.wait_task with
    | some _ => none
    | none =>
        if s.count > 0 then
          some (.immediate true, .Running,
                { s with count := (s.count + (USIZE - 1)) % USIZE }, env)
        else
          some (.blocked, .Blocked,
                { s with task_notified := false, wait_task := some curTask },
                { env with
                    sleepQueue :=
                      addToSleepQueue env.sleepQueue (env.tick + timeout_ms) curTask })

/-- Second full-access critical section of `wait_until_timeout` (mailbox.rs
lines 208-215), run after the yield returns: unconditionally clear the waiter
slot and return `task_notified`. -/
def wait_until_timeout_resume (s : Inner) : Bool × Inner :=
  (s.task_notified, { s with wait_task := none })

/-- First attempt of `Mailbox::wait` (mailbox.rs line 144): a
`wait_until_timeout` with the constant very large timeout. -/
def wait_entry (inIsr : Bool) (curTask : Nat) (s : Inner) (env : KernelEnv) :
    Option (WaitEntry × TaskState × Inner × KernelEnv) :=
  wait_until_timeout_entry inIsr curTask 100000000 s env

/-- C3: with Full access and a registered waiter, `notify_allow_isr` removes
that task from the sleep queue, sets `task_notified`, clears the waiter slot,
and leaves `count` and `pending_count` unchanged. -/
theorem notify_full_waiter_handoff (s : Inner) (env : KernelEnv) (t : Nat)
    (h : s.wait_task = some t) :
    notify_allow_isr .Full s env =
      ({ s with wait_task := none, task_notified := true },
       { env with sleepQueue := removeFromSleepQueue env.sleepQueue t }) ∧
    (notify_allow_isr .Full s env).1.count = s.count ∧
    (notify_allow_isr .Full s env).1.pending_count = s.pending_count ∧
    (notify_allow_isr .Full s env).1.wait_task = none ∧
    (notify_allow_isr .Full s env).1.task_notified = true := by
  simp [notify_allow_isr, h]

/-- C3 witness: concrete instance with a registered waiter. -/
theorem notify_full_waiter_handoff_witness :
    notify_allow_isr .Full
        { count := 5, pending_count := 0, wait_task := some 7, task_notified := false }
        { sleepQueue := [(10, 7), (20, 9)], tick := 3 } =
      ({ count := 5, pending_count := 0, wait_task := none, task_notified := true },
       { sleepQueue := [(20, 9)], tick := 3 }) := by
  have h := notify_full_waiter_handoff
    { count := 5, pending_count := 0, wait_task := some 7, task_notified := false }
    { sleepQueue := [(10, 7), (20, 9)], tick := 3 } 7 rfl
  rw [h.1]
  decide

/-- C4 counterexample: the claim states that in the no-waiter Full-access
branch nothing but `count` changes, yet the code also stores
`task_notified := true` (mailbox.rs line 242): starting from a state with
`task_notified = false` and no waiter, a Full-access notify flips it. -/
theorem notify_full_no_waiter_counterexample :
    ((Inner.new).task_notified = false) ∧
    (notify_allow_isr .Full Inner.new { sleepQueue := [], tick := 0 }).1.task_notified
      = true := by
  decide

/-- C4 amended: with Full access and no registered waiter, the effect of
`notify_allow_isr` is to increment `count` by one (wrapping mod `USIZE`) and
set `task_notified` to `true`; `pending_count` and `wait_task` are unchanged
and the kernel environment is untouched. -/
theorem notify_full_no_waiter_increment (s : Inner) (env : KernelEnv)
    (h : s.wait_task = none) :
    notify_allow_isr .Full s env =
      ({ s with count := (s.count + 1) % USIZE, task_notified := true }, env) ∧
    (s.count + 1 < USIZE →
      (notify_allow_isr .Full s env).1.count = s.count + 1) ∧
    (notify_allow_isr .Full s env).1.pending_count = s.pending_count ∧
    (notify_allow_isr .Full s env).1.wait_task = none ∧
    (notify_allow_isr .Full s env).2 = env := by
  refine ⟨by simp [notify_allow_isr, h], ?_, by simp [notify_allow_isr, h],
    by simp [notify_allow_isr, h], by simp [notify_allow_isr, h]⟩
  intro hlt
  simp [notify_allow_isr, h, Nat.mod_eq_of_lt hlt]

/-- C4 amended witness: concrete instance with no waiter. -/
theorem notify_full_no_waiter_increment_witness :
    notify_allow_isr .Full
        { count := 2, pending_count := 1, wait_task := none, task_notified := false }
        { sleepQueue := [], tick := 0 } =
      ({ count := 3, pending_count := 1, wait_task := none, task_notified := true },
       { sleepQueue := [], tick := 0 }) := by
  have h := notify_full_no_waiter_increment
    { count := 2, pending_count := 1, wait_task := none, task_notified := false }
    { sleepQueue := [], tick := 0 } rfl
  rw [h.1]
  decide

/-- C1: with PendOnly access, `notify_allow_isr` performs exactly one
(wrapping) increment of `pending_count` and changes nothing else; and
`run_pended_op`, run on the next Full-access entry, swaps `pending_count` to
zero, adds the swapped value into `count`, and — if a waiter is registered —
removes it from the sleep queue, sets `task_notified`, and decrements `count`
by one (exactly one, whenever the merged count is positive). -/
theorem notify_pend_only_and_merge (s : Inner) (env : KernelEnv) :
    (notify_allow_isr .PendOnly s env =
      ({ s with pending_count := (s.pending_count + 1) % USIZE }, env)) ∧
    (∀ s2 : Inner, ∀ env2 : KernelEnv, s2.wait_task = none →
      run_pended_op s2 env2 =
        ({ s2 with
            pending_count := 0
            count := (s2.count + s2.pending_count) % USIZE }, env2)) ∧
    (∀ s2 : Inner, ∀ env2 : KernelEnv, ∀ t : Nat, s2.wait_task = some t →
      run_pended_op s2 env2 =
        ({ s2 with
            pending_count := 0
            count := ((s2.count + s2.pending_count) % USIZE + (USIZE - 1)) % USIZE
            wait_task := none
            task_notified := true },
         { env2 with sleepQueue := removeFromSleepQueue env2.sleepQueue t }) ∧
      (0 < (s2.count + s2.pending_count) % USIZE →
        (run_pended_op s2 env2).1.count = (s2.count + s2.pending_count) % USIZE - 1)) := by
  refine ⟨by simp [notify_allow_isr], ?_, ?_⟩
  · intro s2 env2 h
    simp [run_pended_op, h]
  · intro s2 env2 t h
    constructor
    · simp [run_pended_op, h]
    · intro hpos
      have hlt : (s2.count + s2.pending_count) % USIZE < USIZE :=
        Nat.mod_lt _ (by decide)
      have heq : (s2.count + s2.pending_count) % USIZE + (USIZE - 1)
          = ((s2.count + s2.pending_count) % USIZE - 1) + USIZE := by omega
      simp [run_pended_op, h, heq, Nat.add_mod_right,
        Nat.mod_eq_of_lt (show (s2.count + s2.pending_count) % USIZE - 1 < USIZE by omega)]

/-- C1 witness: a pended notification is merged into `count` and, with a
waiter registered, hands off immediately. -/
theorem notify_pend_only_and_merge_witness :
    (notify_allow_isr .PendOnly
        { count := 0, pending_count := 0, wait_task := some 4, task_notified := false }
        { sleepQueue := [(9, 4)], tick := 1 } =
      ({ count := 0, pending_count := 1, wait_task := some 4, task_notified := false },
       { sleepQueue := [(9, 4)], tick := 1 })) ∧
    (run_pended_op
        { count := 0, pending_count := 1, wait_task := some 4, task_notified := false }
        { sleepQueue := [(9, 4)], tick := 1 } =
      ({ count := 0, pending_count := 0, wait_task := none, task_notified := true },
       { sleepQueue := [], tick := 1 })) ∧
    (run_pended_op
        { count := 2, pending_count := 3, wait_task := none, task_notified := false }
        { sleepQueue := [], tick := 1 } =
      ({ count := 5, pending_count := 0, wait_task := none, task_notified := false },
       { sleepQueue := [], tick := 1 })) := by
  have h := notify_pend_only_and_merge
    { count := 0, pending_count := 0, wait_task := some 4, task_notified := false }
    { sleepQueue := [(9, 4)], tick := 1 }
  refine ⟨?_, ?_, ?_⟩
  · rw [h.1]; decide
  · rw [(h.2.2 { count := 0, pending_count := 1, wait_task := some 4, task_notified := false }
      { sleepQueue := [(9, 4)], tick := 1 } 4 rfl).1]
    decide
  · rw [h.2.1 { count := 2, pending_count := 3, wait_task := none, task_notified := false }
      { sleepQueue := [], tick := 1 } rfl]
    decide

/-- C2: called from task context with the waiter slot free and `count` a
machine-word value, `wait_until_timeout` (i) on `count > 0` decrements
`count` and returns `true` without blocking, leaving the scheduler state
untouched, (ii) on `count = 0` registers the calling task as the sole
waiter, clears `task_notified`, enqueues the task at wake tick
`tick + timeout_ms`, and transitions it to `Blocked`; and (iii) the resume
section after the yield clears the waiter slot and returns `task_notified`. -/
theorem wait_until_timeout_spec (curTask timeout_ms : Nat) (s : Inner)
    (env : KernelEnv) (hslot : s.wait_task = none) (hlt : s.count < USIZE) :
    (0 < s.count →
      wait_until_timeout_entry false curTask timeout_ms s env =
        some (.immediate true, .Running, { s with count := s.count - 1 }, env)) ∧
    (s.count = 0 →
      wait_until_timeout_entry false curTask timeout_ms s env =
        some (.blocked, .Blocked,
          { s with task_notified := false, wait_task := some curTask },
          { env with
              sleepQueue :=
                addToSleepQueue env.sleepQueue (env.tick + timeout_ms) curTask })) ∧
    (∀ s2 : Inner,
      wait_until_timeout_resume s2 = (s2.task_notified, { s2 with wait_task := none })) := by
  refine ⟨?_, ?_, fun s2 => rfl⟩
  · intro hpos
    have heq : s.count + (USIZE - 1) = (s.count - 1) + USIZE := by omega
    simp [wait_until_timeout_entry, hslot, hpos, heq, Nat.add_mod_right,
      Nat.mod_eq_of_lt (show s.count - 1 < USIZE by omega)]
  · intro hzero
    simp [wait_until_timeout_entry, hslot, hzero]

/-- C2 witness: both entry paths and the resume section at concrete states. -/
theorem wait_until_timeout_spec_witness :
    (wait_until_timeout_entry false 6 500
        { count := 2, pending_count := 0, wait_task := none, task_notified := true }
        { sleepQueue := [], tick := 40 } =
      some (.immediate true, .Running,
        { count := 1, pending_count := 0, wait_task := none, task_notified := true },
        { sleepQueue := [], tick := 40 })) ∧
    (wait_until_timeout_entry false 6 500
        { count := 0, pending_count := 0, wait_task := none, task_notified := true }
        { sleepQueue := [], tick := 40 } =
      some (.blocked, .Blocked,
        { count := 0, pending_count := 0, wait_task := some 6, task_notified := false },
        { sleepQueue := [(540, 6)], tick := 40 })) ∧
    (wait_until_timeout_resume
        { count := 0, pending_count := 0, wait_task := some 6, task_notified := true } =
      (true, { count := 0, pending_count := 0, wait_task := none, task_notified := true })) := by
  have h1 := wait_until_timeout_spec 6 500
    { count := 2, pending_count := 0, wait_task := none, task_notified := true }
    { sleepQueue := [], tick := 40 } rfl (by decide)
  have h2 := wait_until_timeout_spec 6 500
    { count := 0, pending_count := 0, wait_task := none, task_notified := true }
    { sleepQueue := [], tick := 40 } rfl (by decide)
  refine ⟨?_, ?_, ?_⟩
  · rw [h1.1 (by decide)]; decide
  · rw [h2.2.1 rfl]; decide
  · rw [h2.2.2 { count := 0, pending_count := 0, wait_task := some 6, task_notified := true }]

/-- C5: calling `wait_until_timeout` (or the first attempt of `wait`) while
another task is already registered in the waiter slot hits the
`assert!(locked_wait_task.is_none())` and aborts (modelled by `none`)
instead of registering a second waiter. -/
theorem wait_second_waiter_fatal (inIsr : Bool) (curTask timeout_ms t : Nat)
    (s : Inner) (env : KernelEnv) (h : s.wait_task = some t) :
    wait_until_timeout_entry inIsr curTask timeout_ms s env = none ∧
    wait_entry inIsr curTask s env = none := by
  cases inIsr <;> simp [wait_until_timeout_entry, wait_entry, h]

/-- C5 witness: a second waiter registration attempt aborts. -/
theorem wait_second_waiter_fatal_witness :
    wait_until_timeout_entry false 8 100
        { count := 0, pending_count := 0, wait_task := some 5, task_notified := false }
        { sleepQueue := [(30, 5)], tick := 10 } = none ∧
    wait_entry false 8
        { count := 0, pending_count := 0, wait_task := some 5, task_notified := false }
        { sleepQueue := [(30, 5)], tick := 10 } = none :=
  wait_second_waiter_fatal false 8 100 5
    { count := 0, pending_count := 0, wait_task := some 5, task_notified := false }
    { sleepQueue := [(30, 5)], tick := 10 } rfl

/-- Iterate Full-access notifies (the state evolution under `k` successive
`notify_allow_isr` calls that each obtain Full access). -/
def iterNotifyFull : Nat → Inner → KernelEnv → Inner × KernelEnv
  | 0, s, env => (s, env)
  | k + 1, s, env =>
      iterNotifyFull k (notify_allow_isr .Full s env).1 (notify_allow_isr .Full s env).2

/-- Iterate PendOnly-access notifies. -/
def iterNotifyPend : Nat → Inner → KernelEnv → Inner × KernelEnv
  | 0, s, env => (s, env)
  | k + 1, s, env =>
      iterNotifyPend k (notify_allow_isr .PendOnly s env).1 (notify_allow_isr .PendOnly s env).2

/-- Helper: with no waiter, `k` Full-access notifies accumulate into `count`
modulo `USIZE`, and the slot stays empty. -/
theorem iterNotifyFull_count (k : Nat) (s : Inner) (env : KernelEnv)
    (h : s.wait_task = none) (hlt : s.count < USIZE) :
    (iterNotifyFull k s env).1.count = (s.count + k) % USIZE ∧
    (iterNotifyFull k s env).1.wait_task = none := by
  induction k generalizing s env with
  | zero =>
      simp [iterNotifyFull, h, Nat.mod_eq_of_lt hlt]
  | succ n ih =>
      have hstep : notify_allow_isr .Full s env =
          ({ s with count := (s.count + 1) % USIZE, task_notified := true }, env) := by
        simp [notify_allow_isr, h]
      have hrec := ih { s with count := (s.count + 1) % USIZE, task_notified := true }
        env h (Nat.mod_lt _ (by decide))
      constructor
      · calc (iterNotifyFull (n + 1) s env).1.count
            = ((s.count + 1) % USIZE + n) % USIZE := by
              rw [iterNotifyFull, hstep]; exact hrec.1
          _ = (s.count + (n + 1)) % USIZE := by
              rw [Nat.mod_add_mod]; ring_nf
      · rw [iterNotifyFull, hstep]; exact hrec.2

/-- Helper: `k` PendOnly-access notifies accumulate into `pending_count`
modulo `USIZE` and change nothing else. -/
theorem iterNotifyPend_count (k : Nat) (s : Inner) (env : KernelEnv)
    (hlt : s.pending_count < USIZE) :
    (iterNotifyPend k s env).1.pending_count = (s.pending_count + k) % USIZE ∧
    (iterNotifyPend k s env).1.count = s.count ∧
    (iterNotifyPend k s env).1.wait_task = s.wait_task ∧
    (iterNotifyPend k s env).2 = env := by
  induction k generalizing s env with
  | zero =>
      simp [iterNotifyPend, Nat.mod_eq_of_lt hlt]
  | succ n ih =>
      have hrec := ih { s with pending_count := (s.pending_count + 1) % USIZE }
        env (Nat.mod_lt _ (by decide))
      refine ⟨?_, ?_, ?_, ?_⟩
      · calc (iterNotifyPend (n + 1) s env).1.pending_count
            = ((s.pending_count + 1) % USIZE + n) % USIZE := by
              rw [iterNotifyPend]; exact hrec.1
          _ = (s.pending_count + (n + 1)) % USIZE := by
              rw [Nat.mod_add_mod]; ring_nf
      · rw [iterNotifyPend]; exact hrec.2.1
      · rw [iterNotifyPend]; exact hrec.2.2.1
      · rw [iterNotifyPend]; exact hrec.2.2.2

/-- C10: the notification counters wrap rather than saturate: starting from
a fresh mailbox, `k` Full-access notifies leave `count = k % 2 ^ 32` and `k`
PendOnly notifies leave `pending_count = k % 2 ^ 32`; in particular after
exactly `2 ^ 32` notifies the counter reads `0`, not a saturated maximum. -/
theorem notify_counters_wrap (k : Nat) (env : KernelEnv) :
    (iterNotifyFull k Inner.new env).1.count = k % USIZE ∧
    (iterNotifyPend k Inner.new env).1.pending_count = k % USIZE ∧
    (iterNotifyFull USIZE Inner.new env).1.count = 0 ∧
    (iterNotifyPend USIZE Inner.new env).1.pending_count = 0 := by
  refine ⟨?_, ?_, ?_, ?_⟩
  · have h := (iterNotifyFull_count k Inner.new env rfl (by decide)).1
    rw [h]; simp [Inner.new]
  · have h := (iterNotifyPend_count k Inner.new env (by decide)).1
    rw [h]; simp [Inner.new]
  · have h := (iterNotifyFull_count USIZE Inner.new env rfl (by decide)).1
    rw [h]; simp [Inner.new]
  · have h := (iterNotifyPend_count USIZE Inner.new env (by decide)).1
    rw [h]; simp [Inner.new]

/-- C9: every return path of `wait_until_timeout` leaves the waiter slot
empty: the fast path returns with the slot it found (necessarily empty), the
resume section clears the slot unconditionally, a Full-access notify always
leaves the slot empty, and `run_pended_op` always leaves the slot empty. -/
theorem wait_slot_always_cleared :
    (∀ inIsr : Bool, ∀ curTask timeout_ms : Nat, ∀ s : Inner, ∀ env : KernelEnv,
      ∀ r : Bool, ∀ st : TaskState, ∀ s2 : Inner, ∀ env2 : KernelEnv,
      wait_until_timeout_entry inIsr curTask timeout_ms s env =
          some (.immediate r, st, s2, env2) →
      s2.wait_task = none) ∧
    (∀ s : Inner, (wait_until_timeout_resume s).2.wait_task = none) ∧
    (∀ s : Inner, ∀ env : KernelEnv, (notify_allow_isr .Full s env).1.wait_task = none) ∧
    (∀ s : Inner, ∀ env : KernelEnv, (run_pended_op s env).1.wait_task = none) := by
  refine ⟨?_, fun s => rfl, ?_, ?_⟩
  · intro inIsr curTask timeout_ms s env r st s2 env2 h
    unfold wait_until_timeout_entry at h
    split at h
    · exact Option.noConfusion h
    · split at h
      · exact Option.noConfusion h
      · next hw =>
          split at h
          · injection h with h
            injection h with h1 h
            injection h with h2 h
            injection h with h3 h4
            rw [← h3]
            exact hw
          · injection h with h
            injection h with h1 h
            exact WaitEntry.noConfusion h1
  · intro s env
    cases hw : s.wait_task <;> simp [notify_allow_isr, hw]
  · intro s env
    cases hw : s.wait_task <;> simp [run_pended_op, hw]

/-- C9 witness: slot emptiness on concrete instances of all four paths. -/
theorem wait_slot_always_cleared_witness :
    ((Inner.mk 0 0 none false).wait_task = none) ∧
    ((wait_until_timeout_resume (Inner.mk 0 0 (some 3) true)).2.wait_task = none) ∧
    ((notify_allow_isr .Full (Inner.mk 0 0 (some 3) false)
        (KernelEnv.mk [(5, 3)] 0)).1.wait_task = none) ∧
    ((run_pended_op (Inner.mk 0 1 (some 3) false)
        (KernelEnv.mk [(5, 3)] 0)).1.wait_task = none) := by
  have h := wait_slot_always_cleared
  exact ⟨h.1 false 3 10 (Inner.mk 1 0 none false) (KernelEnv.mk [] 0) true .Running
      (Inner.mk 0 0 none false) (KernelEnv.mk [] 0) (by decide),
    h.2.1 (Inner.mk 0 0 (some 3) true),
    h.2.2.1 (Inner.mk 0 0 (some 3) false) (KernelEnv.mk [(5, 3)] 0),
    h.2.2.2 (Inner.mk 0 1 (some 3) false) (KernelEnv.mk [(5, 3)] 0)⟩

/-! ## Mutex (spec-modelled)

The `Mutex` implementation is not shipped under `src/` (only its tests under
`examples/tests/sync/mutex/` are), so it is modelled from spec sections 3
and 4.4. -/

/-- Modelled from the spec: the `Mutex` state (implementation missing from
`src/`): a held flag, a sticky poisoned flag (set, never cleared, on
abnormal release), and a priority-ordered wait collection with ties broken
by arrival order; waiters are `(priority, task id)` pairs, lower numeric
priority value meaning higher priority, kept in arrival order. -/
structure MutexState where
  held : Bool
  poisoned : Bool
  waiters : List (Nat × Nat)
deriving DecidableEq, Repr

/-- Modelled from the spec: a fresh `Mutex` is free and unpoisoned. -/
def MutexState.new : MutexState :=
  { held := false, poisoned := false, waiters := [] }

/-- Modelled from the spec: `is_poisoned` returns whether the poison flag
was ever set; never resets. -/
def is_poisoned (s : MutexState) : Bool :=
  s.poisoned

/-- Modelled from the spec: `lock` (missing from `src/`): if held, the
caller joins the wait collection (arrival order) and blocks (`false`); else
the caller acquires the lock immediately (`true`). -/
def mutexLock (s : MutexState) (pri tid : Nat) : MutexState × Bool :=
  if s.held then ({ s with waiters := s.waiters ++ [(pri, tid)] }, false)
  else ({ s with held := true }, true)

/-- Modelled from the spec: selection from the priority-ordered wait
collection — the waiter with the lowest numeric priority value, earliest
arrival breaking ties, together with the remaining waiters. -/
def extractHighest : List (Nat × Nat) → Option ((Nat × Nat) × List (Nat × Nat))
  | [] => none
  | w :: ws =>
      match extractHighest ws with
      | none => some (w, [])
      | some (b, rest) => if w.1 ≤ b.1 then some (w, ws) else some (b, w :: rest)

/-- Modelled from the spec: release at guard scope end (missing from
`src/`): if the holder panicked, the poison flag is set permanently before
release; if waiters exist, ownership transfers directly to the
highest-priority waiter (returned as `some tid`, the lock stays held); else
the lock is marked free. -/
def mutexRelease (s : MutexState) (panicked : Bool) : MutexState × Option Nat :=
  let s1 : MutexState := { s with poisoned := s.poisoned || panicked }
  match extractHighest s1.waiters with
  | some (w, rest) => ({ s1 with waiters := rest }, some w.2)
  | none => ({ s1 with held := false }, none)

/-- Operations applied to a `Mutex` over its lifetime. -/
inductive MutexOp where
  | lock (pri tid : Nat)
  | release (panicked : Bool)
deriving DecidableEq, Repr

/-- One `Mutex` operation, state part only. -/
def mutexStep (s : MutexState) : MutexOp → MutexState
  | .lock pri tid => (mutexLock s pri tid).1
  | .release panicked => (mutexRelease s panicked).1

/-- A sequence of `Mutex` operations. -/
def mutexRun (s : MutexState) : List MutexOp → MutexState
  | [] => s
  | op :: ops => mutexRun (mutexStep s op) ops

/-- The cons case of `extractHighest` always selects a waiter. -/
theorem extractHighest_cons_isSome (a : Nat × Nat) (ws : List (Nat × Nat)) :
    (extractHighest (a :: ws)).isSome := by
  rw [extractHighest]
  cases extractHighest ws with
  | none => rfl
  | some p =>
      obtain ⟨b, rest⟩ := p
      by_cases h : a.1 ≤ b.1 <;> simp [h]

/-- The selected waiter belongs to the collection and has minimal numeric
priority value among all waiters. -/
theorem extractHighest_spec : ∀ (l : List (Nat × Nat)) (w : Nat × Nat)
    (rest : List (Nat × Nat)), extractHighest l = some (w, rest) →
    w ∈ l ∧ ∀ x ∈ l, w.1 ≤ x.1
  | [], w, rest, h => by simp [extractHighest] at h
  | a :: ws, w, rest, h => by
      cases hws : extractHighest ws with
      | none =>
          simp only [extractHighest, hws] at h
          injection h with h
          injection h with h1 h2
          subst h1
          cases ws with
          | nil => simp
          | cons b bs =>
              have hs := extractHighest_cons_isSome b bs
              rw [hws] at hs
              simp at hs
      | some p =>
          obtain ⟨b, brest⟩ := p
          simp only [extractHighest, hws] at h
          have ih := extractHighest_spec ws b brest hws
          by_cases hle : a.1 ≤ b.1
          · rw [if_pos hle] at h
            injection h with h
            injection h with h1 h2
            subst h1
            refine ⟨List.mem_cons_self _ _, ?_⟩
            intro x hx
            rcases List.mem_cons.mp hx with hx | hx
            · subst hx; exact le_refl _
            · exact le_trans hle (ih.2 x hx)
          · rw [if_neg hle] at h
            injection h with h
            injection h with h1 h2
            subst h1
            refine ⟨List.mem_cons_of_mem _ ih.1, ?_⟩
            intro x hx
            rcases List.mem_cons.mp hx with hx | hx
            · subst hx; omega
            · exact ih.2 x hx

/-- Arrival order breaks priority ties: a waiter at the head whose priority
value is less than or equal to every later waiter is the one selected. -/
theorem extractHighest_arrival_tie (pri tid : Nat) (ws : List (Nat × Nat))
    (h : ∀ x ∈ ws, pri ≤ x.1) :
    extractHighest ((pri, tid) :: ws) = some ((pri, tid), ws) := by
  cases hws : extractHighest ws with
  | none =>
      cases ws with
      | nil => rfl
      | cons b bs =>
          have hs := extractHighest_cons_isSome b bs
          rw [hws] at hs
          simp at hs
  | some q =>
      obtain ⟨b, rest⟩ := q
      have hb := (extractHighest_spec ws b rest hws).1
      simp only [extractHighest, hws]
      rw [if_pos (h b hb)]

/-- The concrete test scenario of `examples/tests/sync/mutex/priority.rs`:
main (task 0, priority `p`) takes the lock; while it is held, low (task 1,
priority `p + 1`), high (task 2, priority `p - 1`) and middle (task 3,
priority `p`) block on it in that spawn order; then the lock is released
three times, each task dropping its guard after acquiring. The result is
the sequence of tasks ownership is handed to. -/
def prioScenario (p : Nat) : Option Nat × Option Nat × Option Nat :=
  let s0 := (mutexLock MutexState.new p 0).1
  let s1 := (mutexLock s0 (p + 1) 1).1
  let s2 := (mutexLock s1 (p - 1) 2).1
  let s3 := (mutexLock s2 p 3).1
  let r1 := mutexRelease s3 false
  let r2 := mutexRelease r1.1 false
  let r3 := mutexRelease r2.1 false
  (r1.2, r2.2, r3.2)

/-- C6: releasing a held `Mutex` transfers ownership to the highest-priority
waiter (lowest numeric priority value, arrival order breaking ties), so
waiters acquire strictly in priority order; concretely, with low (`p + 1`),
high (`p - 1`) and middle (`p`) blocked while the lock is held, the three
releases hand the lock to high (task 2), middle (task 3), low (task 1) in
that order. -/
theorem mutex_release_priority_order (p : Nat) (hp : 0 < p) :
    (∀ (s : MutexState) (w : Nat × Nat) (rest : List (Nat × Nat)),
      extractHighest s.waiters = some (w, rest) →
      mutexRelease s false = ({ s with waiters := rest }, some w.2) ∧
      ∀ x ∈ s.waiters, w.1 ≤ x.1) ∧
    (∀ (pri tid : Nat) (ws : List (Nat × Nat)), (∀ x ∈ ws, pri ≤ x.1) →
      extractHighest ((pri, tid) :: ws) = some ((pri, tid), ws)) ∧
    prioScenario p = (some 2, some 3, some 1) := by
  refine ⟨?_, extractHighest_arrival_tie, ?_⟩
  · intro s w rest hx
    refine ⟨?_, (extractHighest_spec s.waiters w rest hx).2⟩
    simp [mutexRelease, hx]
  · have h1 : p - 1 ≤ p := by omega
    have h2 : ¬ (p + 1 ≤ p - 1) := by omega
    have h3 : ¬ (p + 1 ≤ p) := by omega
    simp [prioScenario, mutexLock, mutexRelease, MutexState.new, extractHighest,
      h1, h2, h3]

/-- C6 witness: the concrete scenario at the default priority value 4. -/
theorem mutex_release_priority_order_witness :
    (0 < 4 ∧ prioScenario 4 = (some 2, some 3, some 1)) ∧
    mutexRelease { held := true, poisoned := false, waiters := [(3, 9)] } false =
      ({ held := true, poisoned := false, waiters := [] }, some 9) := by
  have h := mutex_release_priority_order 4 (by decide)
  refine ⟨⟨by decide, h.2.2⟩, ?_⟩
  have h2 := (h.1 { held := true, poisoned := false, waiters := [(3, 9)] }
    (3, 9) [] (by decide)).1
  rw [h2]

/-- C7: the `Mutex` poison flag is monotonic: it starts `false` on a fresh
mutex, a release caused by a panic while holding the lock sets it to `true`
(and still hands the lock to the next waiter), and no subsequent sequence
of lock or release operations ever clears it, so `is_poisoned` stays `true`
permanently. -/
theorem mutex_poison_monotonic :
    (is_poisoned MutexState.new = false) ∧
    (∀ s : MutexState, is_poisoned (mutexRelease s true).1 = true) ∧
    (∀ (s : MutexState) (w : Nat × Nat) (rest : List (Nat × Nat)),
      extractHighest s.waiters = some (w, rest) →
      (mutexRelease s true).2 = some w.2) ∧
    (∀ (s : MutexState) (ops : List MutexOp), is_poisoned s = true →
      is_poisoned (mutexRun s ops) = true) := by
  refine ⟨rfl, ?_, ?_, ?_⟩
  · intro s
    cases hx : extractHighest s.waiters with
    | none => simp [mutexRelease, is_poisoned, hx]
    | some q =>
        obtain ⟨w, rest⟩ := q
        simp [mutexRelease, is_poisoned, hx]
  · intro s w rest hx
    simp [mutexRelease, hx]
  · intro s ops hs
    induction ops generalizing s with
    | nil => exact hs
    | cons op ops ih =>
        refine ih (mutexStep s op) ?_
        cases op with
        | lock pri tid =>
            by_cases hh : s.held <;>
              simp [mutexStep, mutexLock, is_poisoned, hh] <;>
              simpa [is_poisoned] using hs
        | release panicked =>
            cases hx : extractHighest s.waiters with
            | none =>
                simp only [mutexStep, mutexRelease, hx]
                simpa [is_poisoned] using Or.inl (by simpa [is_poisoned] using hs)
            | some q =>
                obtain ⟨w, rest⟩ := q
                simp only [mutexStep, mutexRelease, hx]
                simpa [is_poisoned] using Or.inl (by simpa [is_poisoned] using hs)

/-- C7 witness: a panic release poisons a concrete mutex, still wakes the
waiter, and the flag survives a later lock/release sequence. -/
theorem mutex_poison_monotonic_witness :
    (is_poisoned MutexState.new = false) ∧
    (is_poisoned (mutexRelease { held := true, poisoned := false, waiters := [(2, 5)] }
      true).1 = true) ∧
    ((mutexRelease { held := true, poisoned := false, waiters := [(2, 5)] } true).2
      = some 5) ∧
    (is_poisoned (mutexRun { held := true, poisoned := true, waiters := [] }
      [.lock 3 6, .release false, .release false]) = true) := by
  have h := mutex_poison_monotonic
  exact ⟨h.1,
    h.2.1 { held := true, poisoned := false, waiters := [(2, 5)] },
    h.2.2.1 { held := true, poisoned := false, waiters := [(2, 5)] } (2, 5) [] (by decide),
    h.2.2.2 { held := true, poisoned := true, waiters := [] }
      [.lock 3 6, .release false, .release false] rfl⟩

/-! ## Channel (spec-modelled)

The `Channel` implementation is not shipped under `src/` (only its test
under `examples/tests/sync/channel/` is), so it is modelled from spec
sections 3 and 4.6: a fixed-capacity FIFO buffer. -/

/-- Modelled from the spec: `try_produce_allow_isr` (implementation missing
from `src/`): non-blocking; on a full channel it fails, returning the
rejected value unchanged and leaving the buffer untouched; otherwise it
enqueues at the tail and succeeds. -/
def try_produce_allow_isr (cap : Nat) (buf : List Nat) (v : Nat) :
    List Nat × Except Nat Unit :=
  if cap ≤ buf.length then (buf, Except.error v) else (buf ++ [v], Except.ok ())

/-- Modelled from the spec: `produce` (implementation missing from `src/`)
restricted to the non-blocking case: with a free slot it enqueues at the
tail; on a full channel it would block (`none` here). -/
def channelProduce (cap : Nat) (buf : List Nat) (v : Nat) : Option (List Nat) :=
  if cap ≤ buf.length then none else some (buf ++ [v])

/-- Modelled from the spec: `consume` (implementation missing from `src/`)
restricted to the non-blocking case: with at least one element it dequeues
the head; on an empty channel it would block (`none` here). -/
def channelConsume (buf : List Nat) : Option (Nat × List Nat) :=
  match buf with
  | [] => none
  | x :: xs => some (x, xs)

/-- Produce a list of values in order, all without blocking. -/
def fillAll (cap : Nat) (buf : List Nat) : List Nat → Option (List Nat)
  | [] => some buf
  | v :: vs => (channelProduce cap buf v).bind fun b2 => fillAll cap b2 vs

/-- Check that every value in the list is rejected by
`try_produce_allow_isr`, each returning the same value with the buffer
untouched. -/
def tryRejects (cap : Nat) (buf : List Nat) : List Nat → Bool
  | [] => true
  | v :: vs =>
      match try_produce_allow_isr cap buf v with
      | (buf2, Except.error r) => r == v && buf2 == buf && tryRejects cap buf vs
      | (_, Except.ok _) => false

/-- Check that consuming repeatedly yields exactly the given values in
order and empties the buffer. -/
def drainEquals : List Nat → List Nat → Bool
  | buf, [] => buf == ([] : List Nat)
  | buf, e :: es =>
      match channelConsume buf with
      | some (x, rest) => x == e && drainEquals rest es
      | none => false

/-- C8: `try_produce_allow_isr` on a full channel fails, returns the
rejected value unchanged and leaves the buffer untouched; on a non-full
channel it enqueues at the tail and succeeds; `consume` dequeues the head
(FIFO). Concretely, a capacity-4 channel filled with 0,1,2,3 rejects each
of 4,5,6,7 returning that same value, and then drains 0,1,2,3 in order. -/
theorem channel_try_produce_fifo (cap : Nat) (buf : List Nat) (v : Nat) :
    (cap ≤ buf.length → try_produce_allow_isr cap buf v = (buf, Except.error v)) ∧
    (buf.length < cap → try_produce_allow_isr cap buf v = (buf ++ [v], Except.ok ())) ∧
    (∀ (x : Nat) (xs : List Nat), channelConsume (x :: xs) = some (x, xs)) ∧
    (fillAll 4 [] [0, 1, 2, 3] = some [0, 1, 2, 3] ∧
     tryRejects 4 [0, 1, 2, 3] [4, 5, 6, 7] = true ∧
     drainEquals [0, 1, 2, 3] [0, 1, 2, 3] = true) := by
  refine ⟨?_, ?_, fun x xs => rfl, by decide, by decide, by decide⟩
  · intro hfull
    simp [try_produce_allow_isr, hfull]
  · intro hfree
    simp [try_produce_allow_isr, Nat.not_le.mpr hfree]

/-- C8 witness: both branches at a concrete capacity-2 channel. -/
theorem channel_try_produce_fifo_witness :
    try_produce_allow_isr 2 [10, 11] 12 = ([10, 11], Except.error 12) ∧
    try_produce_allow_isr 2 [10] 11 = ([10, 11], Except.ok ()) ∧
    channelConsume [10, 11] = some (10, [11]) := by
  have h := channel_try_produce_fifo 2 [10, 11] 12
  have h2 := channel_try_produce_fifo 2 [10] 11
  exact ⟨h.1 (by decide), h2.2.1 (by decide), h2.2.2.1 10 [11]⟩

end Hopter
